import Mathlib

/-!
Shallow embedding of `src/preprocessing.py` (citation-network preprocessing
pipeline).  Python dynamic values are modelled explicitly:

* Python `dict` is an insertion-ordered association list (`Dict`), with
  `dlookup` for `d[k]` and `dinsert` for `d[k] = v` (update in place keeps
  the position of an existing key, as CPython dicts do).
* A Python exception is a `PyError`; any fallible operation returns
  `Except PyError _`.
* Values used as dictionary keys in the source are `PyKey`: the source mixes
  plain strings, integers (the V8 reference targets and the `-1` default
  paper id) and, by a slip in `read_v10`, one-element lists of strings.
  Looking a list up in a dict is a `TypeError` in Python (unhashable).
* Python list element assignment `xs[i] = v` (`listStore`) raises
  `IndexError` when `i` is not an existing position; `xs[0]` on an empty
  list (`listHead`) likewise raises `IndexError`.
-/

set_option autoImplicit false

namespace Citenet

/-- Python values used as dictionary keys by the source. -/
inductive PyKey where
  | str (s : String)
  | int (n : Int)
  | strList (l : List String)
deriving DecidableEq, Repr

/-- The Python exceptions the embedded code can raise. -/
inductive PyError where
  | indexError
  | keyError
  | typeError
  | valueError
  | fileNotFoundError
  | unsupportedOperation
  | attributeError
deriving DecidableEq, Repr

/-- True exactly on `Except.error`. -/
def isErr {α : Type} : Except PyError α → Bool
  | .error _ => true
  | .ok _ => false

/-- A Python dict, insertion ordered. -/
abbrev Dict (K V : Type) := List (K × V)

/-- Dictionary lookup `d[k]` (as an `Option`; a raising variant is built on
top of this where the source indexes a dict). -/
def dlookup {K V : Type} [DecidableEq K] (k : K) : Dict K V → Option V
  | [] => none
  | (k', v) :: rest => if k' = k then some v else dlookup k rest

/-- Dictionary store `d[k] = v`: update in place if the key exists (keeping
its position), otherwise append at the end. -/
def dinsert {K V : Type} [DecidableEq K] (d : Dict K V) (k : K) (v : V) : Dict K V :=
  match d with
  | [] => [(k, v)]
  | (k', v') :: rest => if k' = k then (k, v) :: rest else (k', v') :: dinsert rest k v

/-- The source function `safe_append` (lines 222-226): `try d[id].append(elem)`,
and on `KeyError` set `d[id] = [elem]`. -/
def safe_append {K V : Type} [DecidableEq K] (d : Dict K (List V)) (k : K) (e : V) :
    Dict K (List V) :=
  match dlookup k d with
  | some xs => dinsert d k (xs ++ [e])
  | none => dinsert d k [e]

/-- A normalized paper record as stored by both parsers. -/
structure Paper where
  title : String
  authors : List String
  venue : String
  year : Int
  abstract : String
deriving DecidableEq, Repr

/-- One decoded JSON line of a V10 dump file.  JSON decoding itself is done
by the external `json` library, so `read_v10` is given already-decoded
records (one list per file, in `os.walk` order). -/
structure V10Record where
  id : String
  title : String
  authors : List String
  venue : String
  year : Int
  abstract : String
  references : List String
deriving DecidableEq, Repr

/-- Python list element assignment `xs[i] = v`: `IndexError` unless `i` is an
existing position. -/
def listStore {α : Type} (l : List α) (i : Nat) (x : α) : Except PyError (List α) :=
  if i < l.length then .ok (l.set i x) else .error .indexError

/-- Python `xs[0]`: `IndexError` on an empty list. -/
def listHead {α : Type} : List α → Except PyError α
  | [] => .error .indexError
  | x :: _ => .ok x

/-- The collaboration-index loop shared by both parsers
(`for author in authors: safe_append(collaboration_authors, author, idx)`). -/
def collabFold (authors : List String) (idx : Nat) (d : Dict String (List Nat)) :
    Dict String (List Nat) :=
  authors.foldl (fun d a => safe_append d a idx) d

/-- Lines 114-115 of the source: for every entry of `references`, append the
pair `([paper["id"]], reference)` — note the first component is a one-element
Python *list* holding the id, not the id itself. -/
def appendRefsV10 (pid : String) (refs : List String) (acc : List (PyKey × PyKey)) :
    List (PyKey × PyKey) :=
  acc ++ refs.map (fun r => (PyKey.strList [pid], PyKey.str r))

/-- Python `os.path.join` with two components. -/
def pathJoin2 (a b : String) : String := a ++ "/" ++ b

/-- Python `os.path.join` with three components. -/
def pathJoin3 (a b c : String) : String := a ++ "/" ++ b ++ "/" ++ c

/-- Parser state of `read_v10` (the local variables of lines 89-94). -/
structure V10State where
  papers : List Paper
  first_authors : Dict String (List Nat)
  collaboration_authors : Dict String (List Nat)
  references_flat : List (PyKey × PyKey)
  id2idx : Dict PyKey Nat
  idx : Nat
deriving DecidableEq, Repr

def initV10State : V10State :=
  { papers := [], first_authors := [], collaboration_authors := [],
    references_flat := [], id2idx := [], idx := 0 }

/-- The body of the `for line in dblp` loop of `read_v10` (lines 100-115):
record the id mapping, store the paper with `papers[idx] = {...}` (a Python
list assignment), register the first author and every author, and accumulate
the raw reference pairs.  `idx` is NOT advanced here: the `idx += 1` of the
source sits one level out, in the per-file loop. -/
def readV10Record (st : V10State) (p : V10Record) : Except PyError V10State :=
  let id2idx' := dinsert st.id2idx (PyKey.str p.id) st.idx
  match listStore st.papers st.idx
      { title := p.title, authors := p.authors, venue := p.venue,
        year := p.year, abstract := p.abstract } with
  | .error e => .error e
  | .ok papers' =>
    match listHead p.authors with
    | .error e => .error e
    | .ok fa =>
      .ok { papers := papers',
            first_authors := safe_append st.first_authors fa st.idx,
            collaboration_authors := collabFold p.authors st.idx st.collaboration_authors,
            references_flat := appendRefsV10 p.id p.references st.references_flat,
            id2idx := id2idx',
            idx := st.idx }

/-- All lines of one file, in order. -/
def readV10Records (st : V10State) : List V10Record → Except PyError V10State
  | [] => .ok st
  | p :: rest =>
    match readV10Record st p with
    | .error e => .error e
    | .ok st' => readV10Records st' rest

/-- One file of the V10 dump: parse all its lines, then `idx += 1` (the
source increments `idx` once per file, inside the `with` block but outside
the line loop). -/
def readV10File (st : V10State) (recs : List V10Record) : Except PyError V10State :=
  match readV10Records st recs with
  | .error e => .error e
  | .ok st' => .ok { st' with idx := st'.idx + 1 }

/-- The file loop of `read_v10`: walk the files in order; each file is opened
at `os.path.join(data_path, "dblp.v10", file)` (the source walks `dblp-ref`
but opens under `dblp.v10`).  The second component is the trace of opened
paths, truncated at the file whose parse raised. -/
def readV10Go (dp : String) (st : V10State) :
    List (String × List V10Record) → Except PyError V10State × List String
  | [] => (.ok st, [])
  | (name, recs) :: rest =>
    match readV10File st recs with
    | .error e => (.error e, [pathJoin3 dp "dblp.v10" name])
    | .ok st' =>
      match readV10Go dp st' rest with
      | (r, tr) => (r, pathJoin3 dp "dblp.v10" name :: tr)

/-- Looking one endpoint up in `id2idx`: a list key is unhashable
(`TypeError`); a missing key is a `KeyError`. -/
def resolveKey (m : Dict PyKey Nat) (k : PyKey) : Except PyError Nat :=
  match k with
  | PyKey.strList _ => .error .typeError
  | _ =>
    match dlookup k m with
    | some i => .ok i
    | none => .error .keyError

/-- The resolution comprehension of lines 118 and 171:
`[(id2idx[e[0]], id2idx[e[1]]) for e in references_flat]`, evaluated left to
right, raising at the first unresolvable endpoint. -/
def resolveRefs (m : Dict PyKey Nat) : List (PyKey × PyKey) → Except PyError (List (Nat × Nat))
  | [] => .ok []
  | e :: rest =>
    match resolveKey m e.1 with
    | .error err => .error err
    | .ok a =>
      match resolveKey m e.2 with
      | .error err => .error err
      | .ok b =>
        match resolveRefs m rest with
        | .error err => .error err
        | .ok l => .ok ((a, b) :: l)

/-- The aggregate returned by both parsers (lines 119-122 / 172-175). -/
structure ParsedData where
  papers : List Paper
  first_authors : Dict String (List Nat)
  collaboration_authors : Dict String (List Nat)
  references_flat : List (Nat × Nat)
deriving DecidableEq, Repr

/-- The source function `read_v10` (lines 88-123): parse every file, then resolve the
accumulated reference pairs.  Also returns the trace of opened file paths. -/
def read_v10 (dp : String) (input : List (String × List V10Record)) :
    Except PyError ParsedData × List String :=
  match readV10Go dp initV10State input with
  | (.error e, tr) => (.error e, tr)
  | (.ok st, tr) =>
    match resolveRefs st.id2idx st.references_flat with
    | .error e => (.error e, tr)
    | .ok refs =>
      (.ok { papers := st.papers, first_authors := st.first_authors,
             collaboration_authors := st.collaboration_authors,
             references_flat := refs }, tr)

/-- Python file iteration: split the text after every newline character,
keeping the newline; a final fragment without a newline is still yielded;
no empty string is ever yielded. -/
def pyLinesAux : List Char → List Char → List (List Char)
  | [], acc => if acc.isEmpty then [] else [acc.reverse]
  | c :: rest, acc =>
    if c = '\n' then (acc.reverse ++ ['\n']) :: pyLinesAux rest []
    else pyLinesAux rest (c :: acc)

def pyLinesC (s : String) : List (List Char) := pyLinesAux s.data []

def pyLines (s : String) : List String := (pyLinesC s).map (fun l => String.mk l)

/-- Python slice `line[a:-1]`: the characters from position `a` up to, but
not including, the last one (total: out-of-range slices are empty). -/
def pySlice2 (l : List Char) (a : Nat) : List Char := (l.drop a).dropLast

/-- Python indexing `line[i]`: `IndexError` when out of range. -/
def pyIndex (l : List Char) (i : Nat) : Except PyError Char :=
  match l.get? i with
  | some c => .ok c
  | none => .error .indexError

/-- Python `str.split(",")`: split on every comma; text with no comma (the
empty text included) yields exactly one field. -/
def splitCommaAux : List Char → List Char → List String
  | [], acc => [String.mk acc.reverse]
  | c :: rest, acc =>
    if c = ',' then String.mk acc.reverse :: splitCommaAux rest []
    else splitCommaAux rest (c :: acc)

def pySplitComma (s : String) : List String := splitCommaAux s.data []

/-- The whitespace characters Python `int()` strips. -/
def isPyWS (c : Char) : Bool := c = ' ' || c = '\n' || c = '\t' || c = '\r'

def stripWS (l : List Char) : List Char :=
  ((l.dropWhile isPyWS).reverse.dropWhile isPyWS).reverse

/-- Decimal digit run: `none` on a non-digit character or on an empty run. -/
def digitsVal : List Char → Option Nat → Option Nat
  | [], acc => acc
  | c :: rest, acc =>
    if '0' ≤ c ∧ c ≤ '9' then
      digitsVal rest (some (acc.getD 0 * 10 + (c.toNat - Char.toNat '0')))
    else none

def parseIntCore : List Char → Option Int
  | '-' :: rest => (digitsVal rest none).map (fun n => -(n : Int))
  | '+' :: rest => (digitsVal rest none).map (fun n => (n : Int))
  | l => (digitsVal l none).map (fun n => (n : Int))

/-- Python `int(s)`: strip surrounding whitespace and parse an optionally
signed decimal numeral; `ValueError` otherwise.  (Digit-group underscores
are not modelled; the dumps never contain them.) -/
def pyInt (s : String) : Except PyError Int :=
  match parseIntCore (stripWS s.data) with
  | some n => .ok n
  | none => .error .valueError

/-- Parser state of `read_v8`: the accumulators of lines 127-132 plus the
working record fields of line 136. -/
structure V8State where
  papers : List Paper
  first_authors : Dict String (List Nat)
  collaboration_authors : Dict String (List Nat)
  references_flat : List (PyKey × PyKey)
  id2idx : Dict PyKey Nat
  idx : Nat
  paper_id : PyKey
  title : String
  authors : List String
  venue : String
  year : Int
  abstract : String
deriving DecidableEq, Repr

def initV8State : V8State :=
  { papers := [], first_authors := [], collaboration_authors := [],
    references_flat := [], id2idx := [], idx := 0,
    paper_id := PyKey.int (-1), title := "", authors := [],
    venue := "", year := 0, abstract := "" }

/-- The tagged-line branch of `read_v8` (lines 141-155), for a line whose
first character is the tag character and whose second character is `c1`.
The source checks the seven tags with independent `if` statements; the tags
are mutually exclusive, so sequential conditional updates are equivalent. -/
def readV8Tag (st : V8State) (line : List Char) (c1 : Char) : Except PyError V8State :=
  let st := if c1 = '*' then { st with title := String.mk (pySlice2 line 2) } else st
  let st := if c1 = '@' then
      { st with authors := pySplitComma (String.mk (pySlice2 line 2)) } else st
  match (if c1 = 't' then pyInt (String.mk (pySlice2 line 2)) else .ok st.year) with
  | .error e => .error e
  | .ok y =>
    let st := { st with year := y }
    let st := if c1 = 'c' then { st with venue := String.mk (pySlice2 line 2) } else st
    let st := if c1 = 'i' then
        { st with paper_id := PyKey.str (String.mk (pySlice2 line 6)),
                  id2idx := dinsert st.id2idx (PyKey.str (String.mk (pySlice2 line 6))) st.idx }
      else st
    match (if c1 = '%' then Except.map some (pyInt (String.mk (pySlice2 line 2)))
           else .ok none) with
    | .error e => .error e
    | .ok tgt? =>
      let st := match tgt? with
        | some t => { st with references_flat :=
                        st.references_flat ++ [(st.paper_id, PyKey.int t)] }
        | none => st
      let st := if c1 = '!' then { st with abstract := String.mk (pySlice2 line 2) } else st
      .ok st

/-- The record-finalization branch of `read_v8` (lines 156-169), taken on a
line that does not start with the tag character: store the working record
with `papers[idx] = {...}` (a Python list assignment), register the first
author and every author, advance `idx`, and reset the working fields to the
defaults `id=-1, title='', authors=[], venue='', year=0, abstract=''`. -/
def readV8Finalize (st : V8State) : Except PyError V8State :=
  match listStore st.papers st.idx
      { title := st.title, authors := st.authors, venue := st.venue,
        year := st.year, abstract := st.abstract } with
  | .error e => .error e
  | .ok papers' =>
    match listHead st.authors with
    | .error e => .error e
    | .ok fa =>
      .ok { st with
            papers := papers',
            first_authors := safe_append st.first_authors fa st.idx,
            collaboration_authors := collabFold st.authors st.idx st.collaboration_authors,
            idx := st.idx + 1,
            paper_id := PyKey.int (-1), title := "", authors := [],
            venue := "", year := 0, abstract := "" }

/-- One line of the V8 file (the body of the `for line in acm` loop,
lines 138-169): dispatch on whether the line starts with the tag
character. -/
def readV8Line (st : V8State) (line : List Char) : Except PyError V8State :=
  match pyIndex line 0 with
  | .error e => .error e
  | .ok c0 =>
    if c0 = '#' then
      match pyIndex line 1 with
      | .error e => .error e
      | .ok c1 => readV8Tag st line c1
    else
      readV8Finalize st

def readV8Lines (st : V8State) : List (List Char) → Except PyError V8State
  | [] => .ok st
  | l :: rest =>
    match readV8Line st l with
    | .error e => .error e
    | .ok st' => readV8Lines st' rest

/-- The source function `read_v8` (lines 126-176): stream the single file
`data_path/citation-acm-v8.txt` line by line, then resolve the accumulated
reference pairs (line 171 builds two-element lists rather than tuples; the
lookup semantics are identical).  Also returns the trace of opened paths. -/
def read_v8 (dp : String) (content : String) : Except PyError ParsedData × List String :=
  let tr := [pathJoin2 dp "citation-acm-v8.txt"]
  match readV8Lines initV8State (pyLinesC content) with
  | .error e => (.error e, tr)
  | .ok st =>
    match resolveRefs st.id2idx st.references_flat with
    | .error e => (.error e, tr)
    | .ok refs =>
      (.ok { papers := st.papers, first_authors := st.first_authors,
             collaboration_authors := st.collaboration_authors,
             references_flat := refs }, tr)

/-- Content of a stored file.  Text files hold a string; `json.dump` of the
two structured blob kinds is modelled as storing the structured value itself
(the `json` library is external to this repository, and `write_raw` never
reaches a writable handle anyway). -/
inductive FileData where
  | text (s : String)
  | jpapers (l : List Paper)
  | jauthors (d : Dict String (List Nat))
deriving DecidableEq, Repr

/-- The filesystem: a mapping from path to file content. -/
abbrev FS := List (String × FileData)

/-- A Python file handle: the path it was opened at and its mode. -/
structure Handle where
  path : String
  mode : String
deriving DecidableEq, Repr

/-- Python `open(p, mode)` (mode defaults to `"r"` at every call site of the
source, because `write_raw` and `load_raw` pass their intended mode as a path
component instead): read mode requires the file to exist. -/
def pyOpen (fs : FS) (p : String) (mode : String) : Except PyError Handle :=
  if mode = "r" then
    match dlookup p fs with
    | some _ => .ok { path := p, mode := "r" }
    | none => .error .fileNotFoundError
  else .ok { path := p, mode := mode }

/-- Python `json.dump(v, f)`: writing to a handle that is not open for writing
raises `io.UnsupportedOperation`. -/
def jsonDump (fs : FS) (h : Handle) (v : FileData) : Except PyError FS :=
  if h.mode = "w" then .ok (dinsert fs h.path v) else .error .unsupportedOperation

/-- The source function `write_raw` (lines 179-192).  Every `open` call is
`open(path.join(data_path, NAME, "w"))`: the intended mode string becomes the
last path component and the file is opened in the default read mode, so the
first `json.dump` raises (`FileNotFoundError` already at `open` when the
odd path does not exist).  The continuation after the first dump is dead
code; it is embedded up to the `parsed_data["papers"].keys()` call of line
183, which would itself raise `AttributeError` because `papers` is a Python
list.  Returns the resulting filesystem and the trace of opened paths. -/
def write_raw (fs : FS) (dp : String) (d : ParsedData) : Except PyError FS × List String :=
  let p1 := pathJoin3 dp "papers" "w"
  match pyOpen fs p1 "r" with
  | .error e => (.error e, [p1])
  | .ok h1 =>
    match jsonDump fs h1 (FileData.jpapers d.papers) with
    | .error e => (.error e, [p1])
    | .ok fs1 =>
      let p2 := pathJoin3 dp "papers_id" "w"
      match pyOpen fs1 p2 "r" with
      | .error e => (.error e, [p1, p2])
      | .ok _ => (.error .attributeError, [p1, p2])

/-- Entry kinds of the dict built by `load_raw`: the integer key list, the
csv rows (strings, as `csv.reader` yields them), and a `json.load` blob. -/
inductive RawEntry where
  | ints (l : List Int)
  | rows (r : List (List String))
  | blob (v : FileData)
deriving DecidableEq, Repr

/-- Python `open` followed by consuming the text content (for reading; missing file
raises `FileNotFoundError`). -/
def pyReadText (fs : FS) (p : String) : Except PyError String :=
  match dlookup p fs with
  | some (FileData.text s) => .ok s
  | some _ => .error .typeError
  | none => .error .fileNotFoundError

/-- Python `json.load(f)`: the stored content as an opaque blob (parsing is the
external `json` library). -/
def pyReadBlob (fs : FS) (p : String) : Except PyError FileData :=
  match dlookup p fs with
  | some v => .ok v
  | none => .error .fileNotFoundError

/-- The comprehension `[int(i) for i in f]` over the lines of a text file (line 208). -/
def readIds (s : String) : Except PyError (List Int) :=
  (pyLines s).mapM pyInt

/-- Strip one trailing newline and then one trailing carriage return. -/
def stripCRLF (l : List Char) : List Char :=
  let l := if l.getLast? = some '\n' then l.dropLast else l
  if l.getLast? = some '\r' then l.dropLast else l

/-- The comprehension `[row for row in csv.reader(f)]` (lines 210-211): one row per line,
fields split on commas, a blank line yielding an empty row.  Quoting is not
modelled; the rows written by this pipeline never contain quotes. -/
def csvParse (s : String) : List (List String) :=
  (pyLinesC s).map (fun l =>
    let core := stripCRLF l
    if core.isEmpty then [] else pySplitComma (String.mk core))

/-- The source function `load_raw` (lines 195-219).  Each `open` call passes its intended mode
`"r"` as a path component (`path.join(data_path, NAME, "r")`) and opens in
the default read mode.  Returns the result dict and the trace of opened
paths. -/
def load_raw (fs : FS) (dp : String) (net_struct : Bool) :
    Except PyError (Dict String RawEntry) × List String :=
  let p1 := pathJoin3 dp "papers_id" "r"
  match pyReadText fs p1 with
  | .error e => (.error e, [p1])
  | .ok s1 =>
    match readIds s1 with
    | .error e => (.error e, [p1])
    | .ok keys =>
      let d := dinsert ([] : Dict String RawEntry) "keys" (RawEntry.ints keys)
      let p2 := pathJoin3 dp "references_flat" "r"
      match pyReadText fs p2 with
      | .error e => (.error e, [p1, p2])
      | .ok s2 =>
        let d := dinsert d "references_flat" (RawEntry.rows (csvParse s2))
        if net_struct then (.ok d, [p1, p2])
        else
          let p3 := pathJoin3 dp "papers" "r"
          match pyReadBlob fs p3 with
          | .error e => (.error e, [p1, p2, p3])
          | .ok v3 =>
            let d := dinsert d "papers" (RawEntry.blob v3)
            let p4 := pathJoin3 dp "first_authors" "r"
            match pyReadBlob fs p4 with
            | .error e => (.error e, [p1, p2, p3, p4])
            | .ok v4 =>
              let d := dinsert d "first_authors" (RawEntry.blob v4)
              let p5 := pathJoin3 dp "collaboration_authors" "r"
              match pyReadBlob fs p5 with
              | .error e => (.error e, [p1, p2, p3, p4, p5])
              | .ok v5 =>
                (.ok (dinsert d "collaboration_authors" (RawEntry.blob v5)),
                 [p1, p2, p3, p4, p5])

/-- The value found under `parsed_data["papers"]` when `create_graph` runs:
either an integer paper count (the contract of the spec) or the Python list
that both parsers actually store there. -/
inductive PapersVal where
  | count (n : Nat)
  | plist (l : List Paper)
deriving DecidableEq, Repr

/-- Python `range(x)` as used on `parsed_data["papers"]` (line 68): a list
argument raises `TypeError`. -/
def pyRange : PapersVal → Except PyError (List Nat)
  | .count n => .ok (List.range n)
  | .plist _ => .error .typeError

/-- Modelled from the spec: the external igraph library is out of scope, so
a directed graph is its vertex count (vertices are the indices
`0 .. nverts - 1`) and its edge list. -/
structure IGraph where
  directed : Bool
  nverts : Nat
  edges : List (Nat × Nat)
deriving DecidableEq, Repr

/-- Modelled from the spec: `igraph.Graph(directed=True)` starts empty. -/
def IGraph.empty (directed : Bool) : IGraph :=
  { directed := directed, nverts := 0, edges := [] }

/-- Modelled from the spec: `g.add_vertices(lst)` adds one vertex per list
element. -/
def IGraph.addVertices (g : IGraph) (vs : List Nat) : IGraph :=
  { g with nverts := g.nverts + vs.length }

/-- Modelled from the spec: `g.add_edges(pairs)` appends one edge per pair,
with no deduplication and no self-loop filtering. -/
def IGraph.addEdges (g : IGraph) (es : List (Nat × Nat)) : IGraph :=
  { g with edges := g.edges ++ es }

/-- The source function `create_graph` (lines 65-75), on the two entries of `parsed_data` it
uses.  The igraph branch builds `range(parsed_data["papers"])` vertices and
adds the edge list; the graph-tool branch indexes
`parsed_data[len(parsed_data["papers"])]`, which raises (`TypeError` for
`len` of an int, `KeyError` for the integer-keyed dict access). -/
def create_graph (papers : PapersVal) (references_flat : List (Nat × Nat))
    (withIgraph : Bool) : Except PyError (IGraph × Bool) :=
  if withIgraph then
    match pyRange papers with
    | .error e => .error e
    | .ok vs =>
      .ok (IGraph.addEdges (IGraph.addVertices (IGraph.empty true) vs) references_flat,
           true)
  else
    match papers with
    | PapersVal.count _ => .error .typeError
    | PapersVal.plist _ => .error .keyError

/-- The default `data_path` of lines 39-45: a fixed location derived from
the source file path.  Computing it inspects no file content and opens
nothing. -/
def defaultDataPath : String := pathJoin2 "src" ".data"

/-- One run of the body of `preprocess` after the dual-format check
(lines 50-62): pick the parser, optionally dump the raw data, build the
graph, optionally persist it.  `graph.write_pickle()` is called with no file
name and writes nothing to the data path.  Returns the outcome and the trace
of filesystem paths opened, in order. -/
def preprocessRun (fsV10 : List (String × List V10Record)) (fsV8 : String) (fs : FS)
    (dumpGraph dumpRawData v10 v8 dumpLight : Bool) (dp : String) :
    Except PyError Unit × List String :=
  let parsed :=
    if v10 then read_v10 dp fsV10
    else if v8 then read_v8 dp fsV8
    else (.error .valueError, [])
  match parsed with
  | (.error e, t1) => (.error e, t1)
  | (.ok pd, t1) =>
    let dumped :=
      if dumpRawData then write_raw fs dp pd else (.ok fs, [])
    match dumped with
    | (.error e, t2) => (.error e, t1 ++ t2)
    | (.ok _, t2) =>
      match create_graph (PapersVal.plist pd.papers) pd.references_flat true with
      | .error e => (.error e, t1 ++ t2)
      | .ok _ =>
        let _ := dumpGraph
        let _ := dumpLight
        (.ok (), t1 ++ t2)

/-- The source function `preprocess` (lines 16-62).  When both `v10` and `v8` are set, the
source first re-invokes itself with `(v10, v8) = (False, True)` and the
default data path (the recursion immediately takes the plain run, so it is
embedded as that run), then continues with the original flags; an exception
in the inner run propagates.  With neither flag set, the `else` of line 54
raises `ValueError` before anything is opened. -/
def preprocess (fsV10 : List (String × List V10Record)) (fsV8 : String) (fs : FS)
    (dumpGraph dumpRawData v10 v8 dumpLight : Bool) (data_path : Option String) :
    Except PyError Unit × List String :=
  let dp := match data_path with
    | some p => p
    | none => defaultDataPath
  if v10 && v8 then
    match preprocessRun fsV10 fsV8 fs dumpGraph dumpRawData false true dumpLight
        defaultDataPath with
    | (.error e, t) => (.error e, t)
    | (.ok _, t) =>
      match preprocessRun fsV10 fsV8 fs dumpGraph dumpRawData v10 v8 dumpLight dp with
      | (r, t2) => (r, t ++ t2)
  else
    preprocessRun fsV10 fsV8 fs dumpGraph dumpRawData v10 v8 dumpLight dp

/-- The first-author index is pointwise contained in the collaboration
index: every name bound in `fa` is bound in `ca`, with a superset of the
paper indices. -/
def subsetIndex (fa ca : Dict String (List Nat)) : Prop :=
  ∀ name l, dlookup name fa = some l → ∃ l', dlookup name ca = some l' ∧ l ⊆ l'

end Citenet

namespace Citenet

theorem dlookup_dinsert_self {K V : Type} [DecidableEq K] (d : Dict K V) (k : K) (v : V) :
    dlookup k (dinsert d k v) = some v := by
  induction d with
  | nil => simp [dinsert, dlookup]
  | cons kv rest ih =>
    obtain ⟨k', v'⟩ := kv
    by_cases h : k' = k
    · subst h
      simp [dinsert, dlookup]
    · simp [dinsert, dlookup, h, ih]

theorem dlookup_dinsert_ne {K V : Type} [DecidableEq K] (d : Dict K V) (k k' : K) (v : V)
    (h : k' ≠ k) : dlookup k' (dinsert d k v) = dlookup k' d := by
  induction d with
  | nil => simp [dinsert, dlookup, Ne.symm h]
  | cons kv rest ih =>
    obtain ⟨k2, v2⟩ := kv
    by_cases h2 : k2 = k
    · subst h2
      simp [dinsert, dlookup, Ne.symm h]
    · by_cases h3 : k2 = k'
      · subst h3
        simp [dinsert, dlookup, h2]
      · simp [dinsert, dlookup, h2, h3, ih]

theorem dlookup_safe_append_self {K V : Type} [DecidableEq K] (d : Dict K (List V))
    (k : K) (e : V) :
    dlookup k (safe_append d k e) = some ((dlookup k d).getD [] ++ [e]) := by
  unfold safe_append
  cases h : dlookup k d <;> simp [h, dlookup_dinsert_self]

theorem dlookup_safe_append_ne {K V : Type} [DecidableEq K] (d : Dict K (List V))
    (k k' : K) (e : V) (h : k' ≠ k) :
    dlookup k' (safe_append d k e) = dlookup k' d := by
  unfold safe_append
  cases h2 : dlookup k d <;> simp [dlookup_dinsert_ne _ _ _ _ h]

/-- A concrete V10 record used by the concrete-input theorems below. -/
def recA : V10Record :=
  { id := "a", title := "T", authors := ["Al"],
    venue := "V", year := 2000, abstract := "Ab", references := [] }

/-- C1: the claim asserts unique, dense indices after `read_v10`; on the
smallest real input (one walked file holding one JSON record) the parser
instead raises `IndexError`, because `papers[idx] = {...}` assigns into an
empty Python list. -/
theorem claim_C1 :
    (read_v10 "d" [("f", [recA])]).1 = Except.error PyError.indexError := rfl

/-- C2 counterexample: resolution does not skip a dangling reference and
count it; it raises.  On V10-shaped pairs the list-wrapped citing endpoint
raises `TypeError`; on a plain pair whose target id was never assigned an
index it raises `KeyError`. -/
theorem claim_C2_counterexample :
    resolveRefs [(PyKey.str "a", 0)] [(PyKey.strList ["a"], PyKey.str "zzz")] =
      Except.error PyError.typeError ∧
    resolveRefs [(PyKey.str "a", 0)] [(PyKey.str "a", PyKey.str "zzz")] =
      Except.error PyError.keyError :=
  ⟨rfl, rfl⟩

/-- C2 (amended): when some accumulated reference pair has an endpoint the
id mapping cannot resolve — a cited id never assigned an index, or the
list-wrapped citing endpoint produced by the V10 parser — the resolution
step raises an exception (`KeyError` or `TypeError`) instead of skipping the
pair, and no skipped-reference count is produced. -/
theorem claim_C2 (m : Dict PyKey Nat) (ps : List (PyKey × PyKey))
    (h : ps.any (fun e => isErr (resolveKey m e.1) || isErr (resolveKey m e.2)) = true) :
    isErr (resolveRefs m ps) = true := by
  induction ps with
  | nil => simp at h
  | cons e rest ih =>
    rw [List.any_cons] at h
    cases h1 : resolveKey m e.1 with
    | error err => simp [resolveRefs, h1, isErr]
    | ok a =>
      cases h2 : resolveKey m e.2 with
      | error err => simp [resolveRefs, h1, h2, isErr]
      | ok b =>
        have hrest : rest.any
            (fun e => isErr (resolveKey m e.1) || isErr (resolveKey m e.2)) = true := by
          rw [h1, h2] at h
          simpa [isErr] using h
        have hr := ih hrest
        cases h3 : resolveRefs m rest with
        | error err => simp [resolveRefs, h1, h2, h3, isErr]
        | ok l =>
          rw [h3] at hr
          simp [isErr] at hr

/-- C2 witness: a concrete mapping and a concrete dangling pair on which
resolution raises. -/
theorem claim_C2_witness :
    isErr (resolveRefs [(PyKey.str "b", 1)] [(PyKey.str "b", PyKey.str "nope")]) = true :=
  claim_C2 _ _ (by decide)

/-- C3: no write-then-load round trip is possible, because `write_raw`
always raises: every output file is opened with the intended mode `"w"`
passed as a path component, so the handle is in the default read mode and
the first `json.dump` cannot proceed (or the odd path does not even
exist). -/
theorem claim_C3 (fs : FS) (dp : String) (d : ParsedData) :
    isErr (write_raw fs dp d).1 = true := by
  rcases h : dlookup (pathJoin3 dp "papers" "w") fs with _ | v
  · simp [write_raw, pyOpen, h, isErr]
  · simp [write_raw, pyOpen, jsonDump, h, isErr]

/-- C5: in the V8 parser a run of tagged lines alone never finalizes a
record (the parser completes with nothing appended), and the first
non-tagged line does trigger finalization — which raises `IndexError` at
`papers[idx] = {...}` instead of appending the record. -/
theorem claim_C5 :
    (read_v8 "d" "#*T\n#@Al\n#t2000\n#cV\n#index1\n#!Ab\n").1 =
      Except.ok { papers := [], first_authors := [], collaboration_authors := [],
                  references_flat := [] } ∧
    (read_v8 "d" "#*T\n#@Al\n#t2000\n#cV\n#index1\n#!Ab\n\n").1 =
      Except.error PyError.indexError :=
  ⟨rfl, rfl⟩

/-- C6: calling `preprocess` with `v10 = False` and `v8 = False` raises
`ValueError`, with an empty trace of opened paths: nothing on the
filesystem is opened or written first. -/
theorem claim_C6 (fsV10 : List (String × List V10Record)) (fsV8 : String) (fs : FS)
    (dumpGraph dumpRawData dumpLight : Bool) (data_path : Option String) :
    preprocess fsV10 fsV8 fs dumpGraph dumpRawData false false dumpLight data_path =
      (Except.error PyError.valueError, []) := rfl

/-- C7: for a record with id `"a"` and one reference `"b"`, the pair
accumulated by lines 114-115 wraps the citing endpoint in a one-element
list rather than using the id itself, which differs from the claimed pair
and makes the later id-mapping lookup raise `TypeError`. -/
theorem claim_C7 :
    appendRefsV10 "a" ["b"] [] = [(PyKey.strList ["a"], PyKey.str "b")] ∧
    ((PyKey.strList ["a"], PyKey.str "b") : PyKey × PyKey) ≠
      (PyKey.str "a", PyKey.str "b") ∧
    resolveKey [(PyKey.str "a", 0)] (PyKey.strList ["a"]) =
      Except.error PyError.typeError :=
  ⟨rfl, by decide, rfl⟩

/-- C8: for every paper count `N` and resolved edge list, `create_graph`
(igraph branch) yields a directed graph with exactly `N` vertices
(indices `0..N-1`) and exactly the given edges, preserving multiplicity
and self-loops. -/
theorem claim_C8 (n : Nat) (es : List (Nat × Nat)) :
    create_graph (PapersVal.count n) es true =
      Except.ok ({ directed := true, nverts := n, edges := es }, true) := by
  simp [create_graph, pyRange, IGraph.empty, IGraph.addVertices, IGraph.addEdges]

/-- C10: `safe_append d k e` appends `e` to the existing list under `k`,
creates the singleton `[e]` when `k` is absent, and leaves every other key
unchanged. -/
theorem claim_C10 {K V : Type} [DecidableEq K] (d : Dict K (List V)) (k : K) (e : V) :
    (∀ xs, dlookup k d = some xs →
        dlookup k (safe_append d k e) = some (xs ++ [e])) ∧
    (dlookup k d = none → dlookup k (safe_append d k e) = some [e]) ∧
    (∀ k', k' ≠ k → dlookup k' (safe_append d k e) = dlookup k' d) := by
  refine ⟨?_, ?_, ?_⟩
  · intro xs h
    rw [dlookup_safe_append_self, h]
    rfl
  · intro h
    rw [dlookup_safe_append_self, h]
    rfl
  · intro k' h
    exact dlookup_safe_append_ne d k k' e h

/-- C10 witness: a concrete dictionary exercising both the append and the
frame part. -/
theorem claim_C10_witness :
    dlookup 1 (safe_append [(1, [5])] 1 7) = some [5, 7] ∧
    dlookup 2 (safe_append [(1, [5])] 1 7) = dlookup 2 [(1, [5])] :=
  ⟨(claim_C10 [(1, [5])] 1 7).1 [5] rfl,
   (claim_C10 [(1, [5])] 1 7).2.2 2 (by decide)⟩

theorem safe_append_mono {K V : Type} [DecidableEq K] (d : Dict K (List V)) (x k : K)
    (e : V) (l : List V) (h : dlookup k d = some l) :
    ∃ l', dlookup k (safe_append d x e) = some l' ∧ l ⊆ l' := by
  by_cases hx : k = x
  · subst hx
    refine ⟨l ++ [e], ?_, List.subset_append_left _ _⟩
    rw [dlookup_safe_append_self, h]
    rfl
  · exact ⟨l, by rw [dlookup_safe_append_ne d x k e hx]; exact h, List.Subset.refl l⟩

theorem collabFold_cons (a : String) (rest : List String) (idx : Nat)
    (d : Dict String (List Nat)) :
    collabFold (a :: rest) idx d = collabFold rest idx (safe_append d a idx) := rfl

theorem collabFold_mono (idx : Nat) :
    ∀ (authors : List String) (d : Dict String (List Nat)) (name : String) (l : List Nat),
      dlookup name d = some l →
      ∃ l', dlookup name (collabFold authors idx d) = some l' ∧ l ⊆ l' := by
  intro authors
  induction authors with
  | nil =>
    intro d name l h
    exact ⟨l, h, List.Subset.refl l⟩
  | cons a rest ih =>
    intro d name l h
    obtain ⟨l1, h1, hs1⟩ := safe_append_mono d a name idx l h
    obtain ⟨l2, h2, hs2⟩ := ih (safe_append d a idx) name l1 h1
    exact ⟨l2, by rw [collabFold_cons]; exact h2, List.Subset.trans hs1 hs2⟩

theorem collabFold_mem (idx : Nat) :
    ∀ (authors : List String) (d : Dict String (List Nat)) (a : String), a ∈ authors →
      ∃ l', dlookup a (collabFold authors idx d) = some l' ∧
        (dlookup a d).getD [] ⊆ l' ∧ idx ∈ l' := by
  intro authors
  induction authors with
  | nil =>
    intro d a ha
    exact absurd ha (List.not_mem_nil a)
  | cons x rest ih =>
    intro d a ha
    by_cases hax : a = x
    · subst hax
      obtain ⟨l', h', hs⟩ := collabFold_mono idx rest (safe_append d a idx) a
        ((dlookup a d).getD [] ++ [idx]) (dlookup_safe_append_self d a idx)
      refine ⟨l', by rw [collabFold_cons]; exact h', ?_, ?_⟩
      · intro y hy
        exact hs (List.mem_append_left _ hy)
      · exact hs (List.mem_append_right _ (List.mem_singleton.mpr rfl))
    · have ha' : a ∈ rest := by
        rcases List.mem_cons.mp ha with h | h
        · exact absurd h hax
        · exact h
      obtain ⟨l', h', hsub, hidx⟩ := ih (safe_append d x idx) a ha'
      refine ⟨l', by rw [collabFold_cons]; exact h', ?_, hidx⟩
      rw [dlookup_safe_append_ne d x a idx hax] at hsub
      exact hsub

/-- The record step of either parser preserves the subset relation between
the two author indices: the first author is also registered in the
collaboration index (it is the head of the author list the collaboration
loop runs over). -/
theorem subsetIndex_update (fa ca : Dict String (List Nat)) (a : String)
    (rest : List String) (idx : Nat) (h : subsetIndex fa ca) :
    subsetIndex (safe_append fa a idx) (collabFold (a :: rest) idx ca) := by
  intro name l hl
  by_cases hn : name = a
  · subst hn
    rw [dlookup_safe_append_self] at hl
    injection hl with hl
    subst hl
    obtain ⟨l', hca', hsub, hidx⟩ :=
      collabFold_mem idx (name :: rest) ca name (List.mem_cons_self name rest)
    refine ⟨l', hca', ?_⟩
    intro y hy
    rcases List.mem_append.mp hy with hy | hy
    · cases hfa : dlookup name fa with
      | none =>
        rw [hfa] at hy
        simp at hy
      | some lfa =>
        rw [hfa] at hy
        simp only [Option.getD_some] at hy
        obtain ⟨lca, hlca, hss⟩ := h name lfa hfa
        rw [hlca] at hsub
        exact hsub (hss hy)
    · rw [List.mem_singleton] at hy
      subst hy
      exact hidx
  · rw [dlookup_safe_append_ne fa a name idx hn] at hl
    obtain ⟨lca, hca, hsub⟩ := h name l hl
    obtain ⟨l', h', hs'⟩ := collabFold_mono idx (a :: rest) ca name lca hca
    exact ⟨l', h', List.Subset.trans hsub hs'⟩

theorem readV10Record_inv (st st' : V10State) (p : V10Record)
    (h : readV10Record st p = .ok st')
    (hinv : subsetIndex st.first_authors st.collaboration_authors) :
    subsetIndex st'.first_authors st'.collaboration_authors := by
  unfold readV10Record at h
  split at h
  · exact absurd h (by simp)
  · split at h
    · exact absurd h (by simp)
    · next fa hfa =>
      cases hp : p.authors with
      | nil =>
        rw [hp] at hfa
        exact absurd hfa (by simp [listHead])
      | cons a rest =>
        rw [hp] at hfa
        have hfa' : a = fa := by simpa [listHead] using hfa
        subst hfa'
        injection h with h
        subst h
        show subsetIndex (safe_append st.first_authors a st.idx)
          (collabFold p.authors st.idx st.collaboration_authors)
        rw [hp]
        exact subsetIndex_update _ _ a rest st.idx hinv

theorem readV10Records_inv :
    ∀ (recs : List V10Record) (st st' : V10State),
      readV10Records st recs = .ok st' →
      subsetIndex st.first_authors st.collaboration_authors →
      subsetIndex st'.first_authors st'.collaboration_authors := by
  intro recs
  induction recs with
  | nil =>
    intro st st' h hinv
    injection h with h
    subst h
    exact hinv
  | cons p rest ih =>
    intro st st' h hinv
    unfold readV10Records at h
    split at h
    · exact absurd h (by simp)
    · next st1 h1 =>
      exact ih st1 st' h (readV10Record_inv st st1 p h1 hinv)

theorem readV10File_inv (st st' : V10State) (recs : List V10Record)
    (h : readV10File st recs = .ok st')
    (hinv : subsetIndex st.first_authors st.collaboration_authors) :
    subsetIndex st'.first_authors st'.collaboration_authors := by
  unfold readV10File at h
  split at h
  · exact absurd h (by simp)
  · next st1 h1 =>
    injection h with h
    subst h
    exact readV10Records_inv recs st st1 h1 hinv

theorem readV10Go_inv :
    ∀ (input : List (String × List V10Record)) (dp : String) (st st' : V10State)
      (tr : List String),
      readV10Go dp st input = (.ok st', tr) →
      subsetIndex st.first_authors st.collaboration_authors →
      subsetIndex st'.first_authors st'.collaboration_authors := by
  intro input
  induction input with
  | nil =>
    intro dp st st' tr h hinv
    obtain ⟨h1, h2⟩ := Prod.mk.injEq .. |>.mp h
    injection h1 with h1
    subst h1
    exact hinv
  | cons f rest ih =>
    intro dp st st' tr h hinv
    obtain ⟨name, recs⟩ := f
    unfold readV10Go at h
    split at h
    · simp at h
    · next st1 h1 =>
      split at h
      next r tr0 hgo =>
        obtain ⟨h2, h3⟩ := Prod.mk.injEq .. |>.mp h
        subst h2
        exact ih dp st1 st' tr0 hgo (readV10File_inv st st1 recs h1 hinv)

theorem readV8Tag_fields (st st' : V8State) (line : List Char) (c1 : Char)
    (h : readV8Tag st line c1 = .ok st') :
    st'.first_authors = st.first_authors ∧
      st'.collaboration_authors = st.collaboration_authors := by
  unfold readV8Tag at h
  repeat' split at h
  all_goals simp at h
  all_goals (subst h; exact ⟨rfl, rfl⟩)

theorem readV8Finalize_inv (st st' : V8State)
    (h : readV8Finalize st = .ok st')
    (hinv : subsetIndex st.first_authors st.collaboration_authors) :
    subsetIndex st'.first_authors st'.collaboration_authors := by
  unfold readV8Finalize at h
  split at h
  · exact absurd h (by simp)
  · split at h
    · exact absurd h (by simp)
    · next fa hfa =>
      cases hp : st.authors with
      | nil =>
        rw [hp] at hfa
        exact absurd hfa (by simp [listHead])
      | cons a rest =>
        rw [hp] at hfa
        have hfa' : a = fa := by simpa [listHead] using hfa
        subst hfa'
        injection h with h
        subst h
        show subsetIndex (safe_append st.first_authors a st.idx)
          (collabFold st.authors st.idx st.collaboration_authors)
        rw [hp]
        exact subsetIndex_update _ _ a rest st.idx hinv

theorem readV8Line_inv (st st' : V8State) (line : List Char)
    (h : readV8Line st line = .ok st')
    (hinv : subsetIndex st.first_authors st.collaboration_authors) :
    subsetIndex st'.first_authors st'.collaboration_authors := by
  unfold readV8Line at h
  split at h
  · exact absurd h (by simp)
  · next c0 hc0 =>
    by_cases hc : c0 = '#'
    · rw [if_pos hc] at h
      split at h
      · exact absurd h (by simp)
      · next c1 hc1 =>
        obtain ⟨hf, hc'⟩ := readV8Tag_fields st st' line c1 h
        rw [hf, hc']
        exact hinv
    · rw [if_neg hc] at h
      exact readV8Finalize_inv st st' h hinv

theorem readV8Lines_inv :
    ∀ (ls : List (List Char)) (st st' : V8State),
      readV8Lines st ls = .ok st' →
      subsetIndex st.first_authors st.collaboration_authors →
      subsetIndex st'.first_authors st'.collaboration_authors := by
  intro ls
  induction ls with
  | nil =>
    intro st st' h hinv
    injection h with h
    subst h
    exact hinv
  | cons l rest ih =>
    intro st st' h hinv
    unfold readV8Lines at h
    split at h
    · exact absurd h (by simp)
    · next st1 h1 =>
      exact ih st1 st' h (readV8Line_inv st st1 l h1 hinv)

/-- C9: whichever parser runs to completion, every author name bound in the
first-author index is also bound in the collaboration index, with the
first-author paper indices a subset of the collaboration paper indices. -/
theorem claim_C9 :
    (∀ (dp : String) (input : List (String × List V10Record)) (d : ParsedData),
        (read_v10 dp input).1 = .ok d →
        subsetIndex d.first_authors d.collaboration_authors) ∧
    (∀ (dp content : String) (d : ParsedData),
        (read_v8 dp content).1 = .ok d →
        subsetIndex d.first_authors d.collaboration_authors) := by
  constructor
  · intro dp input d h
    unfold read_v10 at h
    split at h
    · simp at h
    · next st tr hgo =>
      split at h
      · simp at h
      · simp only [Except.ok.injEq] at h
        subst h
        exact readV10Go_inv input dp initV10State st tr hgo
          (fun name l hl => absurd hl (by simp [initV10State, dlookup]))
  · intro dp content d h
    unfold read_v8 at h
    split at h
    · simp at h
    · next st hlines =>
      split at h
      · simp at h
      · simp only [Except.ok.injEq] at h
        subst h
        exact readV8Lines_inv (pyLinesC content) initV8State st hlines
          (fun name l hl => absurd hl (by simp [initV8State, dlookup]))

theorem pathJoin3_length (a b c : String) :
    (pathJoin3 a b c).length = a.length + b.length + c.length + 2 := by
  have h1 : ("/" : String).length = 1 := rfl
  simp [pathJoin3, String.length_append, h1]
  omega

theorem pathJoin3_ne_of_length (dp x y : String) (hxy : x.length ≠ y.length) :
    pathJoin3 dp x "r" ≠ pathJoin3 dp y "r" := by
  intro he
  have hl := congrArg String.length he
  rw [pathJoin3_length, pathJoin3_length] at hl
  omega

theorem notmem_pair {p a b : String} (h1 : p ≠ a) (h2 : p ≠ b) (tr : List String)
    (htr : tr = [a] ∨ tr = [a, b]) : p ∉ tr := by
  intro hmem
  rcases htr with h | h <;> subst h <;> simp at hmem
  · exact h1 hmem
  · rcases hmem with h | h
    · exact h1 h
    · exact h2 h

/-- C4: for every filesystem and data path, `load_raw` in `net_struct` mode
opens at most the paper-id list file and the reference list file — never one
of the three metadata files — and, when it returns, the result dict holds
exactly the two entries `keys` and `references_flat` (the three metadata
entries are absent). -/
theorem claim_C4 (fs : FS) (dp : String) :
    ((load_raw fs dp true).2 = [pathJoin3 dp "papers_id" "r"] ∨
      (load_raw fs dp true).2 =
        [pathJoin3 dp "papers_id" "r", pathJoin3 dp "references_flat" "r"]) ∧
    pathJoin3 dp "papers" "r" ∉ (load_raw fs dp true).2 ∧
    pathJoin3 dp "first_authors" "r" ∉ (load_raw fs dp true).2 ∧
    pathJoin3 dp "collaboration_authors" "r" ∉ (load_raw fs dp true).2 ∧
    ∀ d, (load_raw fs dp true).1 = .ok d →
      d.map Prod.fst = ["keys", "references_flat"] := by
  have hchar : ((load_raw fs dp true).2 = [pathJoin3 dp "papers_id" "r"] ∨
      (load_raw fs dp true).2 =
        [pathJoin3 dp "papers_id" "r", pathJoin3 dp "references_flat" "r"]) ∧
      ∀ d, (load_raw fs dp true).1 = .ok d →
        d.map Prod.fst = ["keys", "references_flat"] := by
    cases h1 : pyReadText fs (pathJoin3 dp "papers_id" "r") with
    | error e => simp [load_raw, h1]
    | ok s1 =>
      cases h2 : readIds s1 with
      | error e => simp [load_raw, h1, h2]
      | ok keys =>
        cases h3 : pyReadText fs (pathJoin3 dp "references_flat" "r") with
        | error e => simp [load_raw, h1, h2, h3]
        | ok s2 => simp [load_raw, h1, h2, h3, dinsert]
  obtain ⟨htr, himp⟩ := hchar
  refine ⟨htr, ?_, ?_, ?_, himp⟩
  · exact notmem_pair (pathJoin3_ne_of_length dp _ _ (by decide))
      (pathJoin3_ne_of_length dp _ _ (by decide)) _ htr
  · exact notmem_pair (pathJoin3_ne_of_length dp _ _ (by decide))
      (pathJoin3_ne_of_length dp _ _ (by decide)) _ htr
  · exact notmem_pair (pathJoin3_ne_of_length dp _ _ (by decide))
      (pathJoin3_ne_of_length dp _ _ (by decide)) _ htr

/-- C4 witness: a concrete filesystem on which the `net_struct` load
succeeds, returning exactly the `keys` and `references_flat` entries. -/
theorem claim_C4_witness :
    (load_raw [(pathJoin3 "dp" "papers_id" "r", FileData.text "0\n"),
               (pathJoin3 "dp" "references_flat" "r", FileData.text "0,1\r\n")]
        "dp" true).1 =
      Except.ok [("keys", RawEntry.ints [0]), ("references_flat", RawEntry.rows [["0", "1"]])] ∧
    ([("keys", RawEntry.ints [0]),
      ("references_flat", RawEntry.rows [["0", "1"]])] : Dict String RawEntry).map
        Prod.fst = ["keys", "references_flat"] := by
  refine ⟨rfl, ?_⟩
  exact (claim_C4 [(pathJoin3 "dp" "papers_id" "r", FileData.text "0\n"),
    (pathJoin3 "dp" "references_flat" "r", FileData.text "0,1\r\n")] "dp").2.2.2.2 _ rfl

/-- C9 witness: both parsers complete on the empty input, where the subset
relation between the two (empty) author indices holds. -/
theorem claim_C9_witness :
    subsetIndex ([] : Dict String (List Nat)) ([] : Dict String (List Nat)) :=
  claim_C9.1 "d" []
    { papers := [], first_authors := [], collaboration_authors := [],
      references_flat := [] } rfl

end Citenet
